import Mathlib

/-!
# Verification of the `ObjectPool` resource pool (src/ObjectPool.cpp)

This file gives a shallow embedding of the C++ `ObjectPool` class and proves
(or refutes) the specification claims about it.

Modelling conventions:

* `Object*` pointers are modelled by natural-number identities; `new Object()`
  hands out a fresh identity from a `nextId` counter.
* `std::queue<Object*> objects` (the free collection) is a `List Nat` whose
  head is the queue front; `push` appends at the tail.
* `std::list<Object*> activeObjects` is a `List Nat`; `push_back` appends,
  `remove` filters out every equal element (the semantics of
  `std::list::remove`).
* Calls to the collaborator operations `activate()` / `deactivate()` /
  `update()` are recorded in logs so that call counts can be stated.
* The bodies of `requestObject` (lines 94-97) and `releaseObject`
  (lines 104-107) are embedded as folds over an explicit list of their
  statements in source order, so that the state reached when one of the
  collaborator calls raises an exception ("run the statements strictly before
  the raising one") is definable from the same embedding.
* Concurrency (the early release of `requestObject`'s `unique_lock` at the
  end of its scope on line 88, the condition-variable wait, and the destructor
  signalling a blocked waiter) is treated separately by a small-step machine
  further below.
-/

set_option autoImplicit false

namespace PoolModel

/-- The state of an `ObjectPool` (data members, lines 27-33), plus the fresh
pointer supply and instrumentation logs for the collaborator calls. -/
structure ObjectPool where
  /-- Member `bool expandable` (line 27). -/
  expandable : Bool
  /-- Member `std::queue<Object*> objects` (line 28): available objects, head = front. -/
  objects : List Nat
  /-- Member `std::list<Object*> activeObjects` (line 29): active objects. -/
  activeObjects : List Nat
  /-- Member `bool stopUpdateFlag` (line 33). -/
  stopUpdateFlag : Bool
  /-- Identity to be handed out by the next `new Object()`. -/
  nextId : Nat
  /-- Completed `activate()` calls, in order, by object identity. -/
  activateLog : List Nat
  /-- Completed `deactivate()` calls, in order, by object identity. -/
  deactivateLog : List Nat
  /-- Completed `update()` calls, in order, by object identity. -/
  updateLog : List Nat
deriving DecidableEq, Repr

/-- Constructor `ObjectPool(int numObjects)` (lines 46-53): `expandable` is
`false`, `numObjects` fresh objects are pushed into the free queue, and the
update thread is started. A non-positive count creates no objects (the C++
`for` loop does not execute). -/
def ObjectPool.make1 (numObjects : Int) : ObjectPool :=
  { expandable := false
    objects := List.range numObjects.toNat
    activeObjects := []
    stopUpdateFlag := false
    nextId := numObjects.toNat
    activateLog := []
    deactivateLog := []
    updateLog := [] }

/-- Constructor `ObjectPool(int numObjects, bool expandable)` (lines 54-61). -/
def ObjectPool.make2 (numObjects : Int) (expandable : Bool) : ObjectPool :=
  { expandable := expandable
    objects := List.range numObjects.toNat
    activeObjects := []
    stopUpdateFlag := false
    nextId := numObjects.toNat
    activateLog := []
    deactivateLog := []
    updateLog := [] }

/-- Lines 90-92: in the expandable branch, if the free queue is empty, push one
freshly created object. -/
def growIfEmpty (s : ObjectPool) : ObjectPool :=
  if s.objects.isEmpty then
    { s with objects := s.objects ++ [s.nextId], nextId := s.nextId + 1 }
  else s

/-- The statements of the common tail of `requestObject` (lines 94-97), as an
enumeration so that exception cut-points can be expressed. -/
inductive ReqStmt where
  /-- Line 94: `Object* obj = objects.front();` -/
  | readFrontS
  /-- Line 95: `objects.pop();` -/
  | popFreeS
  /-- Line 96: `obj->activate();` -/
  | activateS
  /-- Line 97: `activeObjects.push_back(obj);` -/
  | pushActiveS
deriving DecidableEq, Repr

/-- Lines 94-97 in source order. -/
def requestTail : List ReqStmt :=
  [.readFrontS, .popFreeS, .activateS, .pushActiveS]

/-- Effect of one statement of lines 94-97 on the pool state paired with the
local variable `obj`. -/
def execReq : ObjectPool × Option Nat → ReqStmt → ObjectPool × Option Nat
  | (s, _), .readFrontS => (s, some (s.objects.headD 0))
  | (s, l), .popFreeS => ({ s with objects := s.objects.tail }, l)
  | (s, l), .activateS => ({ s with activateLog := s.activateLog ++ [l.getD 0] }, l)
  | (s, l), .pushActiveS => ({ s with activeObjects := s.activeObjects ++ [l.getD 0] }, l)

/-- Method `requestObject` (lines 80-99), as one atomic call. In the non-expandable
case with an empty free queue the caller blocks in the wait loop (lines 84-87),
which is `none` here; otherwise the call completes and returns the handed-out
object together with the new pool state. -/
def requestObject (s : ObjectPool) : Option (Nat × ObjectPool) :=
  if !s.expandable && s.objects.isEmpty then none
  else
    let s1 := if s.expandable then growIfEmpty s else s
    let r := requestTail.foldl execReq (s1, none)
    some (r.2.getD 0, r.1)

/-- The pool state visible to the caller of `requestObject` when the statement
`throwAt` of lines 94-97 raises: the statements strictly before it have run,
it and the later statements have not, and the exception propagates out of
`requestObject` (there is no handler). -/
def requestObjectUpTo (throwAt : ReqStmt) (s : ObjectPool) : Option ObjectPool :=
  if !s.expandable && s.objects.isEmpty then none
  else
    let s1 := if s.expandable then growIfEmpty s else s
    some ((requestTail.takeWhile (fun st => st != throwAt)).foldl execReq (s1, none)).1

/-- The statements of the body of `releaseObject` (lines 104-107). -/
inductive RelStmt where
  /-- Line 104: `obj->deactivate();` -/
  | deactivateS
  /-- Line 105: `objects.push(obj);` -/
  | pushFreeS
  /-- Line 106: `activeObjects.remove(obj);` -/
  | removeActiveS
  /-- Line 107: `releaseMonitor.notify_one();` -/
  | notifyOneS
deriving DecidableEq, Repr

/-- Lines 104-107 in source order. -/
def releaseBody : List RelStmt :=
  [.deactivateS, .pushFreeS, .removeActiveS, .notifyOneS]

/-- Effect of one statement of lines 104-107. `std::list::remove` erases every
element equal to `obj`; `notify_one` does not change the pool state. -/
def execRel (obj : Nat) (s : ObjectPool) : RelStmt → ObjectPool
  | .deactivateS => { s with deactivateLog := s.deactivateLog ++ [obj] }
  | .pushFreeS => { s with objects := s.objects ++ [obj] }
  | .removeActiveS => { s with activeObjects := s.activeObjects.filter (fun x => x != obj) }
  | .notifyOneS => s

/-- Method `releaseObject` (lines 102-108), as one atomic call (its whole body runs
under `lock_guard`). -/
def releaseObject (s : ObjectPool) (obj : Nat) : ObjectPool :=
  releaseBody.foldl (execRel obj) s

/-- The pool state visible to the caller of `releaseObject` when the statement
`throwAt` of lines 104-107 raises: the statements strictly before it have run,
the rest have not, the `lock_guard` unlocks and the exception propagates. -/
def releaseObjectUpTo (throwAt : RelStmt) (s : ObjectPool) (obj : Nat) : ObjectPool :=
  (releaseBody.takeWhile (fun st => st != throwAt)).foldl (execRel obj) s

/-- Lemma: `releaseObject` written out: deactivate is logged, the object is pushed at
the back of the free queue, and every occurrence of it is removed from the
active list. -/
theorem releaseObject_eq (s : ObjectPool) (obj : Nat) :
    releaseObject s obj =
      { s with deactivateLog := s.deactivateLog ++ [obj]
               objects := s.objects ++ [obj]
               activeObjects := s.activeObjects.filter (fun x => x != obj) } := rfl

/-- One iteration of the body of `updateLoop` (lines 38-41): under the lock,
call `update()` on every object currently in `activeObjects`. -/
def updatePass (s : ObjectPool) : ObjectPool :=
  { s with updateLog := s.updateLog ++ s.activeObjects }

/-- Method `updateLoop` (lines 36-43) run for at most `fuel` iterations of the
`while (!stopUpdateFlag)` check: the flag is tested before every pass, and a
pass runs only while it is unset. In this sequential embedding the flag is
part of the state and is not changed by a pass, so once it is set no further
pass ever runs. -/
def updateLoop : ObjectPool → Nat → ObjectPool
  | s, 0 => s
  | s, fuel + 1 => if s.stopUpdateFlag then s else updateLoop (updatePass s) fuel

/-- Elements of a list that are kept by filtering out one value not in it. -/
theorem filter_bne_of_not_mem {l : List Nat} {o : Nat} (h : o ∉ l) :
    l.filter (fun x => x != o) = l := by
  rw [List.filter_eq_self]
  intro a ha
  simpa using ne_of_mem_of_not_mem ha h

/-- The drain loop of the destructor (lines 70-72):
`while (!activeObjects.empty()) releaseObject(activeObjects.front());`.
`std::list::front` is the head of `activeObjects`. The loop terminates because
each `releaseObject` removes every occurrence of the released front from the
active list. -/
def drainActive (s : ObjectPool) : ObjectPool :=
  match h : s.activeObjects with
  | [] => s
  | o :: rest =>
    drainActive (releaseObject s o)
termination_by s.activeObjects.length
decreasing_by
  rw [releaseObject_eq]
  simp only [h, List.filter_cons, bne_self_eq_false, List.length_cons]
  simp only [Bool.false_eq_true, if_false]
  exact Nat.lt_succ_of_le (List.length_filter_le _ _)

/-- Destructor `~ObjectPool` (lines 63-77): set `stopUpdateFlag`, `notify_all` the release
monitor, `join` the update thread (after which no further update pass runs, see
`updateLoop`), force-release every still-active object, then delete every
object left in the free queue. Deleting the objects empties the free queue. -/
def destructor (s : ObjectPool) : ObjectPool :=
  let s1 : ObjectPool := { s with stopUpdateFlag := true }
  let s2 : ObjectPool := drainActive s1
  { s2 with objects := [] }

/-!
## Small-step machine for concurrent `requestObject` calls

`requestObject` (lines 80-99) is *not* one critical section: the
`std::unique_lock` on line 83 lives only until the closing brace of the
`if (!expandable)` block on line 88, so lines 94-97 run without the mutex; in
the expandable branch the mutex is never taken at all. The machine below runs
any number of threads, each executing `requestObject` one statement at a time,
with the mutex and the condition variable modelled explicitly. Program
counters name the source locations. -/

/-- Program counter inside `requestObject`. -/
inductive ReqPC where
  /-- About to evaluate the branch on line 82. -/
  | start
  /-- Holding the mutex, at the `while (objects.empty())` test (line 84). -/
  | checkEmpty
  /-- Blocked inside `releaseMonitor.wait(lock)` (line 86); the mutex is
  released while waiting. -/
  | waiting
  /-- At line 88: the closing brace destroys the `unique_lock`, releasing the
  mutex. -/
  | unlockEnd
  /-- Expandable branch, at the `if (objects.empty())` test (line 90); no lock
  is held. -/
  | growCheck
  /-- Line 94: `Object* obj = objects.front();` -/
  | readFront
  /-- Line 95: `objects.pop();` -/
  | popFront
  /-- Line 96: `obj->activate();` -/
  | activateObj
  /-- Line 97: `activeObjects.push_back(obj);` -/
  | pushActive
  /-- Returned (line 98). -/
  | done
deriving DecidableEq, Repr

/-- One thread executing `requestObject`: its program counter and the local
variable `Object* obj` (meaningful once `readFront` has run). -/
structure ThreadState where
  pc : ReqPC
  obj : Nat
deriving DecidableEq, Repr

/-- The machine: the pool data members, the mutex owner, whether an unconsumed
`notify` is pending on `releaseMonitor`, and the per-thread states. -/
structure Machine where
  pool : ObjectPool
  lockOwner : Option Nat
  notifyPending : Bool
  threads : List ThreadState
deriving DecidableEq, Repr

/-- Replace the state of thread `tid`. -/
def setThread (m : Machine) (tid : Nat) (t : ThreadState) : Machine :=
  { m with threads := m.threads.set tid t }

/-- Execute one atomic statement of thread `tid`'s `requestObject` call. A
thread blocked on the mutex or on the condition variable, an out-of-range
`tid`, or a finished thread leaves the machine unchanged. -/
def microStep (m : Machine) (tid : Nat) : Machine :=
  match m.threads[tid]? with
  | none => m
  | some t =>
    match t.pc with
    | .start =>
        if m.pool.expandable then setThread m tid { t with pc := .growCheck }
        else if m.lockOwner = none then
          { setThread m tid { t with pc := .checkEmpty } with lockOwner := some tid }
        else m
    | .checkEmpty =>
        if m.pool.objects.isEmpty then
          { setThread m tid { t with pc := .waiting } with lockOwner := none }
        else setThread m tid { t with pc := .unlockEnd }
    | .waiting =>
        if m.notifyPending ∧ m.lockOwner = none then
          { setThread m tid { t with pc := .checkEmpty } with
              lockOwner := some tid, notifyPending := false }
        else m
    | .unlockEnd =>
        { setThread m tid { t with pc := .readFront } with lockOwner := none }
    | .growCheck =>
        if m.pool.objects.isEmpty then
          { setThread m tid { t with pc := .readFront } with
              pool := { m.pool with objects := m.pool.objects ++ [m.pool.nextId]
                                    nextId := m.pool.nextId + 1 } }
        else setThread m tid { t with pc := .readFront }
    | .readFront =>
        setThread m tid { t with pc := .popFront, obj := m.pool.objects.headD 0 }
    | .popFront =>
        { setThread m tid { t with pc := .activateObj } with
            pool := { m.pool with objects := m.pool.objects.tail } }
    | .activateObj =>
        { setThread m tid { t with pc := .pushActive } with
            pool := { m.pool with activateLog := m.pool.activateLog ++ [t.obj] } }
    | .pushActive =>
        { setThread m tid { t with pc := .done } with
            pool := { m.pool with activeObjects := m.pool.activeObjects ++ [t.obj] } }
    | .done => m

/-- Run the machine under a schedule: at each step the named thread executes
its next atomic statement. -/
def microRun (m : Machine) (sched : List Nat) : Machine :=
  sched.foldl microStep m

/-- A freshly constructed pool with `numThreads` callers all about to enter
`requestObject`. -/
def initMachine (numObjects : Int) (expandable : Bool) (numThreads : Nat) : Machine :=
  { pool := ObjectPool.make2 numObjects expandable
    lockOwner := none
    notifyPending := false
    threads := List.replicate numThreads ⟨.start, 0⟩ }

/-- Lines 65-66 of `~ObjectPool` as observed by concurrently running callers:
`stopUpdateFlag = true;` and `releaseMonitor.notify_all();`. -/
def destructorSignal (m : Machine) : Machine :=
  { m with pool := { m.pool with stopUpdateFlag := true }, notifyPending := true }

/-!
## Claims
-/

/-- C10: the one-argument constructor `ObjectPool(n)` builds exactly the same
state as the two-argument constructor `ObjectPool(n, false)`: `n` objects in
the free queue, the non-expandable policy, the update thread started with the
stop flag unset. Since the states are equal, every subsequent operation
sequence produces the same results on both. -/
theorem ctor_one_arg_eq_two_arg (n : Int) :
    ObjectPool.make1 n = ObjectPool.make2 n false ∧
    (ObjectPool.make1 n).objects = List.range n.toNat ∧
    (ObjectPool.make1 n).expandable = false ∧
    (ObjectPool.make1 n).stopUpdateFlag = false :=
  ⟨rfl, rfl, rfl, rfl⟩

/-- Witness for `ctor_one_arg_eq_two_arg` at `n = 3`. -/
theorem ctor_one_arg_eq_two_arg_witness :
    ObjectPool.make1 3 = ObjectPool.make2 3 false :=
  (ctor_one_arg_eq_two_arg 3).1

/-- C1 (refuted by the code): on a non-growable pool of size `N = 1`, two
threads calling `requestObject` concurrently can both pass the emptiness check
(each releases the `unique_lock` at line 88 before either reaches line 94) and
then both read `objects.front()`, so both callers receive object `0` with no
intervening release, and `activeObjects` ends with two entries — more than
`N`. The schedule interleaves the two calls at the statement granularity the
source actually locks. -/
theorem race_same_object_two_callers :
    (microRun (initMachine 1 false 2) [0, 0, 0, 1, 1, 1, 0, 1, 0, 1, 0, 0, 1, 1]).threads =
      [⟨.done, 0⟩, ⟨.done, 0⟩] ∧
    (microRun (initMachine 1 false 2) [0, 0, 0, 1, 1, 1, 0, 1, 0, 1, 0, 0, 1, 1]).pool.activeObjects =
      [0, 0] ∧
    (microRun (initMachine 1 false 2) [0, 0, 0, 1, 1, 1, 0, 1, 0, 1, 0, 0, 1, 1]).pool.deactivateLog =
      [] := by
  decide

/-- C3 counterexample: after three statements of a single `requestObject` call
on a non-growable pool of one object, the mutex has already been released (the
`unique_lock` died at line 88) and the thread stands at `objects.pop()`
(line 95); executing that statement mutates the free queue while no thread at
all holds the lock. -/
theorem free_mutation_without_lock :
    (microRun (initMachine 1 false 1) [0, 0, 0, 0]).lockOwner = none ∧
    (microRun (initMachine 1 false 1) [0, 0, 0, 0]).threads = [⟨.popFront, 0⟩] ∧
    (microStep (microRun (initMachine 1 false 1) [0, 0, 0, 0]) 0).pool.objects ≠
      (microRun (initMachine 1 false 1) [0, 0, 0, 0]).pool.objects ∧
    (microStep (microRun (initMachine 1 false 1) [0, 0, 0, 0]) 0).lockOwner = none := by
  decide

/-- C2 counterexample: acquire the single object of a fresh non-growable pool
(the acquire succeeds and leaves `free` empty), release it once (it is no
longer active), then release it a second time. The second release is the
claim's erroneous call: it is not detected, and it appends object `0` to the
free queue again, so `free` ends as `[0, 0]` — a duplicate entry. -/
theorem double_release_duplicates_free :
    requestObject (ObjectPool.make2 1 false) =
      some (0, ⟨false, [], [0], false, 1, [0], [], []⟩) ∧
    0 ∉ (releaseObject ⟨false, [], [0], false, 1, [0], [], []⟩ 0).activeObjects ∧
    (releaseObject (releaseObject ⟨false, [], [0], false, 1, [0], [], []⟩ 0) 0).objects =
      [0, 0] := by
  decide

/-- C2 (amended): releasing a resource `r` that is not in the active collection
is not detected at all: `releaseObject` unconditionally calls `deactivate()` on
it, appends it at the back of the free queue (duplicating it if it was already
there), and leaves the active collection unchanged. -/
theorem releaseObject_inactive_behavior (s : ObjectPool) (r : Nat)
    (h : r ∉ s.activeObjects) :
    (releaseObject s r).objects = s.objects ++ [r] ∧
    (releaseObject s r).activeObjects = s.activeObjects ∧
    (releaseObject s r).deactivateLog = s.deactivateLog ++ [r] := by
  refine ⟨rfl, ?_, rfl⟩
  simpa [releaseObject_eq] using filter_bne_of_not_mem h

/-- Witness for `releaseObject_inactive_behavior`. -/
theorem releaseObject_inactive_behavior_witness :
    (5 : Nat) ∉ (⟨false, [5], [0], false, 6, [0], [], []⟩ : ObjectPool).activeObjects ∧
    (releaseObject ⟨false, [5], [0], false, 6, [0], [], []⟩ 5).objects = [5] ++ [5] :=
  ⟨by decide, (releaseObject_inactive_behavior ⟨false, [5], [0], false, 6, [0], [], []⟩ 5
    (by decide)).1⟩

/-- C4: on a growable pool, `requestObject` never blocks; if the free queue is
non-empty its front is handed out and no object is created (`nextId` is
unchanged); if it is empty, exactly one new object is created (`nextId` rises
by one) and that very object is activated and returned. -/
theorem growable_requestObject (s : ObjectPool) (h : s.expandable = true) :
    (∃ o s', requestObject s = some (o, s')) ∧
    (s.objects = [] →
      requestObject s = some (s.nextId,
        { s with objects := [],
                 nextId := s.nextId + 1,
                 activateLog := s.activateLog ++ [s.nextId],
                 activeObjects := s.activeObjects ++ [s.nextId] })) ∧
    (∀ o rest, s.objects = o :: rest →
      requestObject s = some (o,
        { s with objects := rest,
                 activateLog := s.activateLog ++ [o],
                 activeObjects := s.activeObjects ++ [o] })) := by
  have hempty : s.objects = [] →
      requestObject s = some (s.nextId,
        { s with objects := [],
                 nextId := s.nextId + 1,
                 activateLog := s.activateLog ++ [s.nextId],
                 activeObjects := s.activeObjects ++ [s.nextId] }) := by
    intro hobj
    simp [requestObject, h, growIfEmpty, hobj, requestTail, execReq]
  have hcons : ∀ o rest, s.objects = o :: rest →
      requestObject s = some (o,
        { s with objects := rest,
                 activateLog := s.activateLog ++ [o],
                 activeObjects := s.activeObjects ++ [o] }) := by
    intro o rest hobj
    simp [requestObject, h, growIfEmpty, hobj, requestTail, execReq]
  refine ⟨?_, hempty, hcons⟩
  cases hobj : s.objects with
  | nil => exact ⟨_, _, hempty hobj⟩
  | cons o rest => exact ⟨_, _, hcons o rest hobj⟩

/-- Witness for `growable_requestObject` on an empty growable pool. -/
theorem growable_requestObject_witness :
    (ObjectPool.make2 0 true).expandable = true ∧
    (∃ o s', requestObject (ObjectPool.make2 0 true) = some (o, s')) :=
  ⟨rfl, (growable_requestObject (ObjectPool.make2 0 true) rfl).1⟩

/-- C6 counterexample: on a fresh non-growable pool of one object, if
`activate()` raises during `requestObject`, the exception propagates, but
object `0` has already been popped from the free queue (line 95) and has not
been inserted into the active list (line 97 never runs): it ends in neither
collection. -/
theorem activate_throw_leaks_object :
    (ObjectPool.make2 1 false).objects = [0] ∧
    requestObjectUpTo .activateS (ObjectPool.make2 1 false) =
      some ⟨false, [], [], false, 1, [], [], []⟩ ∧
    0 ∉ (⟨false, [], [], false, 1, [], [], []⟩ : ObjectPool).objects ∧
    0 ∉ (⟨false, [], [], false, 1, [], [], []⟩ : ObjectPool).activeObjects := by
  decide

/-- C6 (amended): when `activate()` raises during `requestObject`, the failure
propagates to the caller and the resource is never left in the active
collection — but it is not returned to `free` either: it has been popped from
the free queue and is left in neither collection (leaked in limbo). -/
theorem requestObject_activate_raises (s : ObjectPool) (o : Nat) (rest : List Nat)
    (hobj : s.objects = o :: rest) (hact : o ∉ s.activeObjects) (hrest : o ∉ rest) :
    requestObjectUpTo .activateS s = some { s with objects := rest } ∧
    o ∉ ({ s with objects := rest } : ObjectPool).objects ∧
    o ∉ ({ s with objects := rest } : ObjectPool).activeObjects := by
  refine ⟨?_, hrest, hact⟩
  have htake : requestTail.takeWhile (fun st => st != ReqStmt.activateS) =
      [ReqStmt.readFrontS, ReqStmt.popFreeS] := by decide
  simp [requestObjectUpTo, hobj, growIfEmpty, htake, execReq]

/-- Witness for `requestObject_activate_raises`. -/
theorem requestObject_activate_raises_witness :
    (ObjectPool.make2 1 false).objects = [0] ∧
    requestObjectUpTo .activateS (ObjectPool.make2 1 false) =
      some { ObjectPool.make2 1 false with objects := ([] : List Nat) } :=
  ⟨by decide, (requestObject_activate_raises (ObjectPool.make2 1 false) 0 []
    (by decide) (by decide) (by decide)).1⟩

/-- C7 counterexample: with object `0` active and the free queue empty, if
`deactivate()` raises during `releaseObject`, the membership transition does
not happen: the pool state is unchanged, so `0` is still in the active
collection and absent from the free queue, contrary to the claim. -/
theorem deactivate_throw_no_transition :
    releaseObjectUpTo .deactivateS ⟨false, [], [0], false, 1, [0], [], []⟩ 0 =
      ⟨false, [], [0], false, 1, [0], [], []⟩ ∧
    0 ∈ (releaseObjectUpTo .deactivateS ⟨false, [], [0], false, 1, [0], [], []⟩ 0).activeObjects ∧
    0 ∉ (releaseObjectUpTo .deactivateS ⟨false, [], [0], false, 1, [0], [], []⟩ 0).objects := by
  decide

/-- C7 (amended): `deactivate()` is called first in `releaseObject` (line 104),
before the membership mutations of lines 105-106; if it raises, the exception
is surfaced to the caller (the `lock_guard` merely unlocks), but the membership
transition does not complete: the pool state is unchanged and a currently
active resource stays in the active collection and is not inserted into
`free`. -/
theorem releaseObject_deactivate_raises (s : ObjectPool) (obj : Nat)
    (h : obj ∈ s.activeObjects) :
    releaseObjectUpTo .deactivateS s obj = s ∧
    obj ∈ (releaseObjectUpTo .deactivateS s obj).activeObjects :=
  ⟨rfl, h⟩

/-- Witness for `releaseObject_deactivate_raises`. -/
theorem releaseObject_deactivate_raises_witness :
    0 ∈ (⟨false, [], [0], false, 1, [0], [], []⟩ : ObjectPool).activeObjects ∧
    releaseObjectUpTo .deactivateS ⟨false, [], [0], false, 1, [0], [], []⟩ 0 =
      ⟨false, [], [0], false, 1, [0], [], []⟩ :=
  ⟨by decide, (releaseObject_deactivate_raises ⟨false, [], [0], false, 1, [0], [], []⟩ 0
    (by decide)).1⟩

/-- C8: one pass of the update loop calls `update()` on exactly the objects in
the active collection, in order; it never updates an object of the free queue
(given that free and active are disjoint, which holds for every legally used
pool); and the stop flag is tested before every pass, so once it is set the
loop performs no further pass at all. -/
theorem updateLoop_updates_exactly_active (s : ObjectPool)
    (hdisj : ∀ o ∈ s.objects, o ∉ s.activeObjects) :
    (updatePass s).updateLog = s.updateLog ++ s.activeObjects ∧
    (∀ o ∈ s.objects, o ∉ (updatePass s).updateLog.drop s.updateLog.length) ∧
    (s.stopUpdateFlag = true → ∀ fuel, updateLoop s fuel = s) := by
  refine ⟨rfl, ?_, ?_⟩
  · intro o ho
    have : (updatePass s).updateLog.drop s.updateLog.length = s.activeObjects := by
      simp [updatePass]
    rw [this]
    exact hdisj o ho
  · intro hstop fuel
    cases fuel with
    | zero => rfl
    | succ n => simp [updateLoop, hstop]

/-- Unfolding: the drain loop stops on an empty active list. -/
theorem drainActive_nil (s : ObjectPool) (h : s.activeObjects = []) :
    drainActive s = s := by
  unfold drainActive
  split
  · rfl
  · next o rest heq => rw [h] at heq; cases heq

/-- Unfolding: with a non-empty active list the drain loop releases the front
and continues. -/
theorem drainActive_cons (s : ObjectPool) (o : Nat) (rest : List Nat)
    (h : s.activeObjects = o :: rest) :
    drainActive s = drainActive (releaseObject s o) := by
  conv_lhs => rw [drainActive.eq_def]
  split
  · next heq => rw [h] at heq; cases heq
  · next o' rest' heq =>
      rw [h] at heq
      injection heq with h1 h2
      subst h1
      rfl

/-- What the destructor's drain loop does, for a duplicate-free active list:
it empties the active list, appends every drained object at the back of the
free queue and to the deactivation log (one `deactivate()` each, in order),
and touches nothing else. -/
theorem drainActive_spec (s : ObjectPool) :
    s.activeObjects.Nodup →
    (drainActive s).activeObjects = [] ∧
    (drainActive s).objects = s.objects ++ s.activeObjects ∧
    (drainActive s).deactivateLog = s.deactivateLog ++ s.activeObjects ∧
    (drainActive s).activateLog = s.activateLog ∧
    (drainActive s).stopUpdateFlag = s.stopUpdateFlag := by
  induction s using drainActive.induct with
  | case1 x hx =>
    intro _
    rw [drainActive_nil x hx, hx]
    simp
  | case2 x o rest hx ih =>
    intro hnd
    rw [hx] at hnd
    have ho : o ∉ rest := (List.nodup_cons.mp hnd).1
    have hrest : rest.Nodup := (List.nodup_cons.mp hnd).2
    have hrel : (releaseObject x o).activeObjects = rest := by
      rw [releaseObject_eq]
      show x.activeObjects.filter (fun y => y != o) = rest
      rw [hx, List.filter_cons]
      simp [filter_bne_of_not_mem ho]
    obtain ⟨i1, i2, i3, i4, i5⟩ := ih (by rw [hrel]; exact hrest)
    rw [drainActive_cons x o rest hx]
    refine ⟨i1, ?_, ?_, ?_, ?_⟩
    · rw [i2, hrel, releaseObject_eq, hx]
      simp
    · rw [i3, hrel, releaseObject_eq, hx]
      simp
    · rw [i4, releaseObject_eq]
    · rw [i5, releaseObject_eq]

/-- C5: teardown first signals the updater to stop (after which the update
loop performs no pass at all, so the `join` on line 67 finishes before any
object is touched), then force-releases every object still active — one
`deactivate()` for each, moving each to the free queue — and finally destroys
every object. Teardown completes even when acquired objects were never
released, and afterwards the `activate()` and `deactivate()` call counts are
equal for every object (given they balanced up to the still-active objects
beforehand, as in every legal history). -/
theorem teardown_drains_balances (s : ObjectPool)
    (hnd : s.activeObjects.Nodup)
    (hbal : s.activateLog.Perm (s.deactivateLog ++ s.activeObjects)) :
    (destructor s).activeObjects = [] ∧
    (destructor s).objects = [] ∧
    (destructor s).stopUpdateFlag = true ∧
    (∀ o ∈ s.activeObjects,
      (destructor s).deactivateLog.count o = s.deactivateLog.count o + 1) ∧
    (∀ o, (destructor s).activateLog.count o = (destructor s).deactivateLog.count o) ∧
    (∀ fuel, updateLoop { s with stopUpdateFlag := true } fuel =
      { s with stopUpdateFlag := true }) := by
  have hspec := drainActive_spec { s with stopUpdateFlag := true } hnd
  obtain ⟨d1, d2, d3, d4, d5⟩ := hspec
  have hdes : destructor s = { drainActive { s with stopUpdateFlag := true } with objects := [] } := rfl
  refine ⟨?_, ?_, ?_, ?_, ?_, ?_⟩
  · rw [hdes]
    exact d1
  · rw [hdes]
  · rw [hdes]
    exact d5
  · intro o ho
    rw [hdes]
    show (drainActive { s with stopUpdateFlag := true }).deactivateLog.count o =
      s.deactivateLog.count o + 1
    rw [d3]
    show (s.deactivateLog ++ s.activeObjects).count o = s.deactivateLog.count o + 1
    rw [List.count_append, List.count_eq_one_of_mem hnd ho]
  · intro o
    rw [hdes]
    show (drainActive { s with stopUpdateFlag := true }).activateLog.count o =
      (drainActive { s with stopUpdateFlag := true }).deactivateLog.count o
    rw [d4, d3]
    exact hbal.count_eq o
  · intro fuel
    cases fuel with
    | zero => rfl
    | succ n => simp [updateLoop]

/-- Witness for `teardown_drains_balances`: a pool of two objects, both
acquired and never released. -/
theorem teardown_drains_balances_witness :
    ([0, 1] : List Nat).Nodup ∧
    (destructor ⟨false, [], [0, 1], false, 2, [0, 1], [], []⟩).activeObjects = [] :=
  ⟨by decide, (teardown_drains_balances ⟨false, [], [0, 1], false, 2, [0, 1], [], []⟩
    (by decide) (by simp)).1⟩

/-- Witness for `updateLoop_updates_exactly_active`. -/
theorem updateLoop_updates_exactly_active_witness :
    (∀ o ∈ (⟨false, [5], [0, 1], true, 6, [0, 1], [], []⟩ : ObjectPool).objects,
      o ∉ (⟨false, [5], [0, 1], true, 6, [0, 1], [], []⟩ : ObjectPool).activeObjects) ∧
    (updatePass ⟨false, [5], [0, 1], true, 6, [0, 1], [], []⟩).updateLog = [] ++ [0, 1] :=
  ⟨by decide, (updateLoop_updates_exactly_active ⟨false, [5], [0, 1], true, 6, [0, 1], [], []⟩
    (by decide)).1⟩

/-!
### Lock ownership along `requestObject`

In the source, a thread executing `requestObject` holds the mutex exactly
while it is between the `unique_lock` construction (line 83) and the end of
that block (line 88) — that is, at the emptiness check and at the scope end.
It never holds the mutex at lines 90-97, where the free queue and the active
list are mutated. -/

/-- Program counters of `requestObject` at which the executing thread holds
the mutex. -/
def holdsLockAt : ReqPC → Bool
  | .checkEmpty => true
  | .unlockEnd => true
  | _ => false

/-- Lock-ownership invariant on the machine components: the mutex is owned by
thread `tid` exactly when `tid`'s program counter is inside the
`unique_lock`'s scope. -/
def LockInvC (lo : Option Nat) (ths : List ThreadState) : Prop :=
  ∀ tid t, ths[tid]? = some t → (lo = some tid ↔ holdsLockAt t.pc = true)

/-- Lock-ownership invariant of a machine state. -/
def LockInv (m : Machine) : Prop :=
  LockInvC m.lockOwner m.threads

/-- Updating one thread's state preserves the lock invariant, provided the new
owner matches the new program counter of the updated thread and is unchanged
relative to every other thread. -/
theorem lockInvC_set (lo lo' : Option Nat) (ths : List ThreadState) (tid : Nat)
    (t t' : ThreadState)
    (h : LockInvC lo ths) (hget : ths[tid]? = some t)
    (hself : lo' = some tid ↔ holdsLockAt t'.pc = true)
    (hother : ∀ u, u ≠ tid → (lo' = some u ↔ lo = some u)) :
    LockInvC lo' (ths.set tid t') := by
  intro u tu hu
  obtain ⟨hlt, -⟩ := List.getElem?_eq_some.mp hget
  rcases eq_or_ne u tid with rfl | hne
  · rw [List.getElem?_set, if_pos rfl, if_pos hlt] at hu
    cases hu
    exact hself
  · rw [List.getElem?_set, if_neg (Ne.symm hne)] at hu
    exact (hother u hne).trans (h u tu hu)

/-- One machine step preserves the lock-ownership invariant. -/
theorem lockInv_step (m : Machine) (tid : Nat) (h : LockInv m) :
    LockInv (microStep m tid) := by
  unfold microStep
  cases hget : m.threads[tid]? with
  | none => simp only [hget]; exact h
  | some t =>
    simp only [hget]
    have hiff := h tid t hget
    obtain ⟨pc, obj⟩ := t
    have step_nolock : ∀ (t' : ThreadState), holdsLockAt t'.pc = false →
        holdsLockAt pc = false →
        LockInvC m.lockOwner (m.threads.set tid t') := by
      intro t' hf hcur
      refine lockInvC_set m.lockOwner m.lockOwner m.threads tid ⟨pc, obj⟩ t' h hget ?_
        (fun u _ => Iff.rfl)
      rw [hf]
      exact iff_of_false (fun hl => by
        have := hiff.mp hl
        rw [hcur] at this
        cases this) (by simp)
    have step_acquire : ∀ (t' : ThreadState), holdsLockAt t'.pc = true →
        m.lockOwner = none →
        LockInvC (some tid) (m.threads.set tid t') := by
      intro t' ht' hnone
      refine lockInvC_set m.lockOwner (some tid) m.threads tid ⟨pc, obj⟩ t' h hget ?_ ?_
      · rw [ht']
        exact iff_of_true rfl rfl
      · intro u hu
        rw [hnone]
        exact iff_of_false (by simpa using Ne.symm hu) (by simp)
    have step_release : ∀ (t' : ThreadState), holdsLockAt t'.pc = false →
        holdsLockAt pc = true →
        LockInvC none (m.threads.set tid t') := by
      intro t' hf hcur
      have hlo : m.lockOwner = some tid := hiff.mpr hcur
      refine lockInvC_set m.lockOwner none m.threads tid ⟨pc, obj⟩ t' h hget ?_ ?_
      · rw [hf]
        exact iff_of_false (by simp) (by simp)
      · intro u hu
        rw [hlo]
        exact iff_of_false (by simp) (by simpa using Ne.symm hu)
    cases pc with
    | start =>
      by_cases hexp : m.pool.expandable = true
      · simp only [hexp, if_true]
        exact step_nolock ⟨.growCheck, obj⟩ rfl rfl
      · simp only [Bool.not_eq_true] at hexp
        simp only [hexp, Bool.false_eq_true, if_false]
        by_cases hlo : m.lockOwner = none
        · simp only [hlo, if_pos rfl]
          exact step_acquire ⟨.checkEmpty, obj⟩ rfl hlo
        · simp only [if_neg hlo]
          exact h
    | checkEmpty =>
      by_cases hemp : m.pool.objects.isEmpty = true
      · simp only [hemp, if_true]
        exact step_release ⟨.waiting, obj⟩ rfl rfl
      · simp only [Bool.not_eq_true] at hemp
        simp only [hemp, Bool.false_eq_true, if_false]
        refine lockInvC_set m.lockOwner m.lockOwner m.threads tid ⟨.checkEmpty, obj⟩
          ⟨.unlockEnd, obj⟩ h hget ?_ (fun u _ => Iff.rfl)
        exact hiff
    | waiting =>
      by_cases hn : m.notifyPending ∧ m.lockOwner = none
      · simp only [if_pos hn]
        exact step_acquire ⟨.checkEmpty, obj⟩ rfl hn.2
      · simp only [if_neg hn]
        exact h
    | unlockEnd => exact step_release ⟨.readFront, obj⟩ rfl rfl
    | growCheck =>
      by_cases hemp : m.pool.objects.isEmpty = true
      · simp only [hemp, if_true]
        exact step_nolock ⟨.readFront, obj⟩ rfl rfl
      · simp only [Bool.not_eq_true] at hemp
        simp only [hemp, Bool.false_eq_true, if_false]
        exact step_nolock ⟨.readFront, obj⟩ rfl rfl
    | readFront => exact step_nolock ⟨.popFront, m.pool.objects.headD 0⟩ rfl rfl
    | popFront => exact step_nolock ⟨.activateObj, obj⟩ rfl rfl
    | activateObj => exact step_nolock ⟨.pushActive, obj⟩ rfl rfl
    | pushActive => exact step_nolock ⟨.done, obj⟩ rfl rfl
    | done => exact h

/-- The lock invariant holds along every run. -/
theorem lockInv_run (m : Machine) (sched : List Nat) (h : LockInv m) :
    LockInv (microRun m sched) := by
  induction sched generalizing m with
  | nil => exact h
  | cons a l ih => exact ih _ (lockInv_step m a h)

/-- The lock invariant holds in a fresh machine (no thread holds the mutex and
every thread is at the entry of `requestObject`). -/
theorem lockInv_init (numObjects : Int) (expandable : Bool) (numThreads : Nat) :
    LockInv (initMachine numObjects expandable numThreads) := by
  intro tid t hget
  have : t = ⟨.start, 0⟩ := by
    obtain ⟨hlt, hval⟩ := List.getElem?_eq_some.mp hget
    have : (initMachine numObjects expandable numThreads).threads[tid] =
        (⟨.start, 0⟩ : ThreadState) := by
      show (List.replicate numThreads (⟨.start, 0⟩ : ThreadState))[tid] = _
      exact List.getElem_replicate _ hlt
    rw [this] at hval
    exact hval.symm
  subst this
  exact iff_of_false (by simp [initMachine]) (by simp [holdsLockAt])

/-- C3 (amended): along every concurrent execution of `requestObject` calls
from a fresh pool, the thread that executes a statement mutating the free
queue or the active collection — the pop on line 95, the insertion on line 97,
or the growable creation on line 91 — never holds the consistency lock at that
moment: the `unique_lock` of line 83 was already destroyed at line 88, and the
growable branch never takes the lock at all. The free-to-active move is
therefore not performed atomically under the lock. -/
theorem requestObject_mutation_steps_unlocked (numObjects : Int) (expandable : Bool)
    (numThreads : Nat) (sched : List Nat) (tid : Nat) (t : ThreadState)
    (hget : (microRun (initMachine numObjects expandable numThreads) sched).threads[tid]? =
      some t)
    (hpc : t.pc = .popFront ∨ t.pc = .pushActive ∨ t.pc = .growCheck) :
    (microRun (initMachine numObjects expandable numThreads) sched).lockOwner ≠ some tid := by
  intro hl
  have hinv := lockInv_run _ sched (lockInv_init numObjects expandable numThreads)
  have := (hinv tid t hget).mp hl
  rcases hpc with h | h | h <;> rw [h] at this <;> cases this

/-- Witness for `requestObject_mutation_steps_unlocked`: the single-thread run
of `free_mutation_without_lock`, at the moment of the pop. -/
theorem requestObject_mutation_steps_unlocked_witness :
    (microRun (initMachine 1 false 1) [0, 0, 0, 0]).threads[0]? =
      some ⟨ReqPC.popFront, 0⟩ ∧
    (microRun (initMachine 1 false 1) [0, 0, 0, 0]).lockOwner ≠ some 0 :=
  ⟨by decide, requestObject_mutation_steps_unlocked 1 false 1 [0, 0, 0, 0] 0
    ⟨ReqPC.popFront, 0⟩ (by decide) (Or.inl rfl)⟩

/-!
### A waiter blocked in `requestObject` during teardown

A caller of `requestObject` on a non-growable, empty pool blocks in
`while (objects.empty()) releaseMonitor.wait(lock);` (lines 84-87). The only
exit condition of that loop is the free queue becoming non-empty: the wait
re-check never consults `stopUpdateFlag` or any shutdown signal. -/

/-- A machine with one caller blocked in the wait loop of `requestObject` on a
non-growable pool of zero objects, after the destructor has executed lines
65-66 (`stopUpdateFlag = true; releaseMonitor.notify_all();`). -/
def blockedWaiterMachine : Machine :=
  destructorSignal (microRun (initMachine 0 false 1) [0, 0])

/-- C9 counterexample: teardown's `notify_all` does wake the blocked waiter,
but the woken waiter re-checks only `objects.empty()`; with the free queue
still empty it goes straight back to waiting, with the notification consumed,
and from then on every further step of the waiter leaves the machine unchanged
— the waiter never returns, with or without a shutdown error. -/
theorem teardown_leaves_waiter_blocked :
    (microRun (initMachine 0 false 1) [0, 0]).threads = [⟨.waiting, 0⟩] ∧
    blockedWaiterMachine.pool.stopUpdateFlag = true ∧
    blockedWaiterMachine.notifyPending = true ∧
    (microRun blockedWaiterMachine [0, 0]).threads = [⟨.waiting, 0⟩] ∧
    (microRun blockedWaiterMachine [0, 0]).notifyPending = false ∧
    microStep (microRun blockedWaiterMachine [0, 0]) 0 =
      microRun blockedWaiterMachine [0, 0] := by
  decide

/-- The waiter of `blockedWaiterMachine` only ever moves between the wait and
the (empty) re-check; the free queue stays empty. -/
def waiterStuck (m : Machine) : Prop :=
  m.pool.objects = [] ∧
  (m.threads = [⟨.waiting, 0⟩] ∨
    (m.threads = [⟨.checkEmpty, 0⟩] ∧ m.lockOwner = some 0))

/-- One step of any thread preserves `waiterStuck`. -/
theorem waiterStuck_step (m : Machine) (tid : Nat) (h : waiterStuck m) :
    waiterStuck (microStep m tid) := by
  obtain ⟨hobj, hcase⟩ := h
  rcases hcase with ht | ⟨ht, hlock⟩
  · match tid with
    | 0 =>
      unfold microStep
      rw [ht]
      by_cases hn : m.notifyPending ∧ m.lockOwner = none
      · simp only [List.getElem?_cons_zero, if_pos hn, setThread]
        exact ⟨hobj, Or.inr ⟨by rw [ht]; rfl, rfl⟩⟩
      · simp only [List.getElem?_cons_zero, if_neg hn]
        exact ⟨hobj, Or.inl ht⟩
    | n + 1 =>
      unfold microStep
      rw [ht]
      simp only [List.getElem?_cons_succ, List.getElem?_nil]
      exact ⟨hobj, Or.inl ht⟩
  · match tid with
    | 0 =>
      unfold microStep
      rw [ht]
      simp only [List.getElem?_cons_zero]
      have hemp : m.pool.objects.isEmpty = true := by rw [hobj]; rfl
      simp only [hemp, if_true, setThread]
      exact ⟨hobj, Or.inl (by rw [ht]; rfl)⟩
    | n + 1 =>
      unfold microStep
      rw [ht]
      simp only [List.getElem?_cons_succ, List.getElem?_nil]
      exact ⟨hobj, Or.inr ⟨ht, hlock⟩⟩

/-- Invariant `waiterStuck` holds along every run. -/
theorem waiterStuck_run (m : Machine) (sched : List Nat) (h : waiterStuck m) :
    waiterStuck (microRun m sched) := by
  induction sched generalizing m with
  | nil => exact h
  | cons a l ih => exact ih _ (waiterStuck_step m a h)

/-- C9 (amended): a caller blocked in `requestObject` on an empty non-growable
pool is woken by teardown's `notify_all`, but since the wait loop's only exit
condition is a non-empty free queue, the waiter re-blocks and never returns
under any schedule whatsoever — no shutdown signal is ever observed and no
shutdown error is returned; the waiter waits forever. -/
theorem waiter_never_returns (sched : List Nat) (t : ThreadState)
    (hget : (microRun blockedWaiterMachine sched).threads[0]? = some t) :
    t.pc ≠ ReqPC.done := by
  have h0 : waiterStuck blockedWaiterMachine := by
    constructor
    · rfl
    · exact Or.inl rfl
  have hstuck := waiterStuck_run blockedWaiterMachine sched h0
  obtain ⟨-, hcase⟩ := hstuck
  rcases hcase with hth | ⟨hth, -⟩ <;> rw [hth] at hget <;>
    cases hget <;> intro hd <;> cases hd

/-- Witness for `waiter_never_returns`: after three further steps the waiter
is still parked at the wait. -/
theorem waiter_never_returns_witness :
    (microRun blockedWaiterMachine [0, 0, 0]).threads[0]? =
      some ⟨ReqPC.waiting, 0⟩ ∧
    (⟨ReqPC.waiting, 0⟩ : ThreadState).pc ≠ ReqPC.done :=
  ⟨by decide, waiter_never_returns [0, 0, 0] ⟨ReqPC.waiting, 0⟩ (by decide)⟩

end PoolModel
